import Mathlib

/-!
# Gwaihir — Machine Allowlist & Dispatch Subsystem: shallow embedding

A shallow embedding, in Lean 4, of the Wake-on-LAN core of the `gwaihir`
repository (Go).  Strings are modelled as lists of character codes
(`List Nat`): every string the subsystem manipulates is ASCII, where Go's
byte indexing and Lean's code-point lists coincide.  Fallible Go functions
return `Option`/`Except`; the effectful transmitter and dispatcher return
an explicit trace of the side effects they performed.
-/

namespace Gwaihir

/-- Character codes of a string (ASCII in all inputs considered here). -/
def chars (s : String) : List Nat := s.toList.map Char.toNat

/-! ## Packet codec (`internal/infrastructure/wol_packet.go`) -/

/-- Go's `copy(dst[off:], src)`: writes `src` into `dst` starting at `off`,
copying `min (dst.length - off) src.length` bytes, never growing `dst`. -/
def goCopy : List Nat → Nat → List Nat → List Nat
  | [], _, _ => []
  | d :: ds, off + 1, src => d :: goCopy ds off src
  | _ :: ds, 0, s :: ss => s :: goCopy ds 0 ss
  | d :: ds, 0, [] => d :: ds

/-- `buildMagicPacket` from `wol_packet.go`: a 102-byte buffer, bytes 0–5 set
to `0xFF`, then for `i` in `0..15` the Go statement
`copy(packet[6+i*6:], macBytes)`. -/
def buildMagicPacket (macBytes : List Nat) : List Nat :=
  let packet := List.replicate 102 0
  let packet := (List.range 6).foldl (fun p i => p.set i 0xFF) packet
  (List.range 16).foldl (fun p i => goCopy p (6 + i * 6) macBytes) packet

example : (buildMagicPacket [1, 2, 3, 4, 5, 6]).length = 102 := by decide

set_option maxHeartbeats 2000000 in
/-- On a 6-byte hardware address the packet is literally the 6-byte
`0xFF` preamble followed by 16 copies of the address. -/
theorem buildMagicPacket_sixBytes (b0 b1 b2 b3 b4 b5 : Nat) :
    buildMagicPacket [b0, b1, b2, b3, b4, b5] =
      List.replicate 6 0xFF ++ (List.replicate 16 [b0, b1, b2, b3, b4, b5]).flatten := by
  rfl

theorem goCopy_length (dst : List Nat) : ∀ off src, (goCopy dst off src).length = dst.length := by
  induction dst with
  | nil => intro off src; cases off <;> cases src <;> rfl
  | cons d ds ih =>
    intro off src
    cases off with
    | zero =>
      cases src with
      | nil => rfl
      | cons s ss => simp [goCopy, ih]
    | succ o => simp [goCopy, ih]

theorem length_eq_six (b : List Nat) (h : b.length = 6) :
    ∃ b0 b1 b2 b3 b4 b5, b = [b0, b1, b2, b3, b4, b5] := by
  match b, h with
  | [b0, b1, b2, b3, b4, b5], _ => exact ⟨b0, b1, b2, b3, b4, b5, rfl⟩

/-- **C1.** For every 6-byte MAC address `b`, `buildMagicPacket b` has length
exactly 102 (no trailing data), bytes 0–5 are each `0xFF`, and for every
`i` in `0..15` bytes `6+6i .. 11+6i` equal `b`. -/
theorem buildMagicPacket_layout (b : List Nat) (h : b.length = 6) :
    (buildMagicPacket b).length = 102 ∧
    (∀ k, k < 6 → (buildMagicPacket b).getD k 0 = 0xFF) ∧
    (∀ i, i < 16 → ∀ j, j < 6 →
      (buildMagicPacket b).getD (6 + 6 * i + j) 0 = b.getD j 0) := by
  obtain ⟨b0, b1, b2, b3, b4, b5, rfl⟩ := length_eq_six b h
  rw [buildMagicPacket_sixBytes]
  refine ⟨rfl, ?_, ?_⟩
  · intro k hk
    interval_cases k <;> rfl
  · intro i hi j hj
    interval_cases i <;> interval_cases j <;> rfl

/-- Witness for C1 at the concrete address AA:BB:CC:DD:EE:FF. -/
theorem buildMagicPacket_layout_witness :
    (buildMagicPacket [0xAA, 0xBB, 0xCC, 0xDD, 0xEE, 0xFF]).length = 102 ∧
    (∀ k, k < 6 → (buildMagicPacket [0xAA, 0xBB, 0xCC, 0xDD, 0xEE, 0xFF]).getD k 0 = 0xFF) ∧
    (∀ i, i < 16 → ∀ j, j < 6 →
      (buildMagicPacket [0xAA, 0xBB, 0xCC, 0xDD, 0xEE, 0xFF]).getD (6 + 6 * i + j) 0 =
        ([0xAA, 0xBB, 0xCC, 0xDD, 0xEE, 0xFF] : List Nat).getD j 0) :=
  buildMagicPacket_layout [0xAA, 0xBB, 0xCC, 0xDD, 0xEE, 0xFF] (by decide)

/-- **C10.** For every input byte sequence, of any length (including the 8-
and 20-byte hardware addresses `net.ParseMAC` can also produce),
`buildMagicPacket` returns a slice of length exactly 102.  The function is
total in this embedding, and Go's `copy` builtin clamps to the destination,
so no out-of-bounds access or panic is possible. -/
theorem buildMagicPacket_total_length (macBytes : List Nat) :
    (buildMagicPacket macBytes).length = 102 := by
  have h : ∀ (l p : List Nat),
      (l.foldl (fun q i => goCopy q (6 + i * 6) macBytes) p).length = p.length := by
    intro l
    induction l with
    | nil => intro p; rfl
    | cons a t ih => intro p; rw [List.foldl_cons, ih, goCopy_length]
  simpa [buildMagicPacket] using
    h (List.range 16) ((List.range 6).foldl (fun p i => p.set i 0xFF) (List.replicate 102 0))

/-! ## Machines and MAC normalization (`internal/domain/machine.go`) -/

/-- Machine record from `machine.go`: id, name, mac, broadcast, all strings. -/
structure Machine where
  id : List Nat
  name : List Nat
  mac : List Nat
  broadcast : List Nat
deriving DecidableEq

/-- Go `strings.ToUpper` on one ASCII character code: 'a'..'z' map to
'A'..'Z', everything else is unchanged. -/
def toUpperChar (c : Nat) : Nat := if 97 ≤ c ∧ c ≤ 122 then c - 32 else c

/-- Go `strings.ToUpper` on an ASCII string. -/
def goToUpper (s : List Nat) : List Nat := s.map toUpperChar

/-- Go `strings.ReplaceAll(s, "-", ":")`: the pattern is a single byte, so
this is a character map. -/
def replaceDashColon (s : List Nat) : List Nat := s.map fun c => if c = 45 then 58 else c

/-- Method `Machine.NormalizeMAC` from `machine.go`:
`strings.ReplaceAll(strings.ToUpper(m.MAC), "-", ":")` — uppercase first,
then replace dashes. -/
def Machine.NormalizeMAC (m : Machine) : List Nat := replaceDashColon (goToUpper m.mac)

/-- Function `normalizeMACAddress` from `wol_packet.go`:
`strings.ToUpper(strings.ReplaceAll(mac, "-", ":"))` — replace dashes first,
then uppercase. -/
def normalizeMACAddress (mac : List Nat) : List Nat := goToUpper (replaceDashColon mac)

/-- Spec-side reading of C8's description of the result: every '-' replaced
by ':' and only the hex letters a–f uppercased (other letters untouched). -/
def specNormalizeHexOnly (s : List Nat) : List Nat :=
  s.map fun c => if c = 45 then 58 else if 97 ≤ c ∧ c ≤ 102 then c - 32 else c

/-- **C8 counterexample.** On the string "g" both implementations uppercase
the non-hex letter, so the result is not "s with only hex letters
uppercased" as the claim describes. -/
theorem normalizeMAC_hexOnly_counterexample :
    normalizeMACAddress (chars "g") ≠ specNormalizeHexOnly (chars "g") ∧
    (Machine.mk (chars "i") (chars "n") (chars "g") (chars "b")).NormalizeMAC ≠
      specNormalizeHexOnly (chars "g") := by
  decide

/-- **C8 (amended).** For every machine, the domain normalization
`Machine.NormalizeMAC` and the transmitter's `normalizeMACAddress` agree,
and the common result is the MAC with every '-' replaced by ':' and every
lowercase ASCII letter (not only the hex letters) uppercased, regardless of
the order in which the two transformations are applied. -/
theorem normalizeMAC_agree (m : Machine) :
    m.NormalizeMAC = normalizeMACAddress m.mac ∧
    m.NormalizeMAC = m.mac.map (fun c => if c = 45 then 58 else toUpperChar c) := by
  constructor
  · show replaceDashColon (goToUpper m.mac) = goToUpper (replaceDashColon m.mac)
    simp only [replaceDashColon, goToUpper, List.map_map]
    congr 1
    funext c
    simp only [Function.comp]
    unfold toUpperChar
    split_ifs <;> omega
  · show replaceDashColon (goToUpper m.mac) = _
    simp only [replaceDashColon, goToUpper, List.map_map]
    congr 1
    funext c
    simp only [Function.comp]
    unfold toUpperChar
    split_ifs <;> omega

/-! ## MAC validation (`internal/domain/machine.go`, `ValidateMAC`) -/

/-- Hexadecimal digit character: the regex class `[0-9A-Fa-f]`. -/
def isHexDigitB (c : Nat) : Bool :=
  (48 ≤ c && c ≤ 57) || (65 ≤ c && c ≤ 70) || (97 ≤ c && c ≤ 102)

/-- Separator character: the regex class `[:-]`. -/
def isSepB (c : Nat) : Bool := c == 58 || c == 45

/-- The anchored Go regex `^([0-9A-Fa-f]{2}[:-]){5}([0-9A-Fa-f]{2})$` from
`ValidateMAC`: exactly 17 characters, positions 2, 5, 8, 11, 14 each an
arbitrary separator from `[:-]` (each repetition of the group chooses its
separator independently), all other positions hex digits. -/
def macRegexAccepts (s : List Nat) : Bool :=
  match s with
  | [a1, b1, c1, a2, b2, c2, a3, b3, c3, a4, b4, c4, a5, b5, c5, a6, b6] =>
    isHexDigitB a1 && isHexDigitB b1 && isSepB c1 &&
    isHexDigitB a2 && isHexDigitB b2 && isSepB c2 &&
    isHexDigitB a3 && isHexDigitB b3 && isSepB c3 &&
    isHexDigitB a4 && isHexDigitB b4 && isSepB c4 &&
    isHexDigitB a5 && isHexDigitB b5 && isSepB c5 &&
    isHexDigitB a6 && isHexDigitB b6
  | _ => false

/-- Go `ValidateMAC` from `machine.go`; `true` means it returns nil. -/
def ValidateMAC (mac : List Nat) : Bool := macRegexAccepts mac

/-- Spec-side shape: `k` two-digit hex octets, consecutive octets joined by
one separator character drawn from `sep`. -/
def octetsSep (sep : Nat → Bool) : Nat → List Nat → Bool
  | 1, [a, b] => isHexDigitB a && isHexDigitB b
  | n + 2, a :: b :: c :: rest =>
    isHexDigitB a && isHexDigitB b && sep c && octetsSep sep (n + 1) rest
  | _, _ => false

/-- Spec-side definition following C5's words: six 2-digit hex octets
separated uniformly by ':' or uniformly by '-'. -/
def specMACUniform (s : List Nat) : Bool :=
  octetsSep (· == 58) 6 s || octetsSep (· == 45) 6 s

/-- **C5 counterexample.** The regex accepts a MAC string that mixes ':'
and '-' separators, which the claim says must be rejected. -/
theorem validateMAC_mixed_accepted :
    ValidateMAC (chars "AA:BB-CC:DD:EE:FF") = true ∧
    specMACUniform (chars "AA:BB-CC:DD:EE:FF") = false := by
  decide

/-- **C5 (amended).** `ValidateMAC` succeeds exactly on six 2-digit
hexadecimal octets (case-insensitive) whose five separators are each,
independently, ':' or '-'; mixing the two separators is accepted. -/
theorem validateMAC_amended (s : List Nat) : ValidateMAC s = octetsSep isSepB 6 s := by
  rcases s with _ | ⟨a1, _ | ⟨b1, _ | ⟨c1, _ | ⟨a2, _ | ⟨b2, _ | ⟨c2, _ | ⟨a3, _ | ⟨b3, _ | ⟨c3,
    _ | ⟨a4, _ | ⟨b4, _ | ⟨c4, _ | ⟨a5, _ | ⟨b5, _ | ⟨c5, _ | ⟨a6, _ | ⟨b6, _ | ⟨x, t⟩⟩⟩⟩⟩⟩⟩⟩⟩⟩⟩⟩⟩⟩⟩⟩⟩⟩ <;>
    first
      | rfl
      | simp [ValidateMAC, macRegexAccepts, octetsSep, Bool.and_assoc]

/-! ## Broadcast validation (`machine.go`, `ValidateBroadcast`)

The source calls Go's `net.ParseIP` and then `ip.To4()`.  `net.ParseIP`
delegates to `netip.ParseAddr` and rejects any address carrying a zone;
the parsers below embed `netip`'s `parseIPv4`/`parseIPv6`. -/

/-- Main loop of Go netip `parseIPv4Fields`, carried state: current field
value `val`, digits read in the current field `digLen`, completed fields
`pos`, completed bytes `acc`.  The Go conditions `i == off || in[i-1] == '.'`
and `i == end-1` at a dot are rendered as `digLen = 0` and `rest = []`. -/
def parseV4Loop : List Nat → Nat → Nat → Nat → List Nat → Option (List Nat)
  | [], val, _, pos, acc =>
    if pos = 3 then some (acc ++ [val]) else none
  | c :: rest, val, digLen, pos, acc =>
    if 48 ≤ c ∧ c ≤ 57 then
      if digLen = 1 ∧ val = 0 then none
      else if 255 < val * 10 + (c - 48) then none
      else parseV4Loop rest (val * 10 + (c - 48)) (digLen + 1) pos acc
    else if c = 46 then
      if digLen = 0 ∨ rest = [] then none
      else if pos = 3 then none
      else parseV4Loop rest 0 0 (pos + 1) (acc ++ [val])
    else none

/-- Value of a hexadecimal digit character, if it is one. -/
def hexVal (c : Nat) : Option Nat :=
  if 48 ≤ c ∧ c ≤ 57 then some (c - 48)
  else if 97 ≤ c ∧ c ≤ 102 then some (c - 87)
  else if 65 ≤ c ∧ c ≤ 70 then some (c - 55)
  else none

/-- Hex-group scan inside netip `parseIPv6`: consume leading hex digits,
returning accumulated value, number of digits, and the rest. -/
def takeHexAux : List Nat → Nat → Nat → Nat × Nat × List Nat
  | [], acc, n => (acc, n, [])
  | c :: rest, acc, n =>
    match hexVal c with
    | none => (acc, n, c :: rest)
    | some d => takeHexAux rest (acc * 16 + d) (n + 1)

/-- Main loop of Go netip `parseIPv6`.  Per iteration: read a hex group
(1–4 digits); on a following '.', parse the embedded IPv4 tail; otherwise
append the 16-bit group and continue past ':' (recording a '::' ellipsis
position at most once).  Returns the bytes filled so far, the ellipsis
position, and the unconsumed rest.  The first argument is fuel; each
iteration consumes at least two characters, so `s.length + 1` never runs
out. -/
def parseV6Loop : Nat → List Nat → List Nat → Option Nat →
    Option (List Nat × Option Nat × List Nat)
  | 0, _, _, _ => none
  | fuel + 1, s, acc, ell =>
    if 16 ≤ acc.length then some (acc, ell, s)
    else
      match takeHexAux s 0 0 with
      | (v, n, rest) =>
        if n = 0 then none
        else if 4 < n then none
        else
          match rest with
          | 46 :: _ =>
            if ell = none ∧ acc.length ≠ 12 then none
            else if 12 < acc.length then none
            else
              match parseV4Loop s 0 0 0 [] with
              | none => none
              | some quad => some (acc ++ quad, ell, [])
          | [] => some (acc ++ [v / 256, v % 256], ell, [])
          | 58 :: rest2 =>
            match rest2 with
            | [] => none
            | 58 :: rest3 =>
              if ell ≠ none then none
              else if rest3 = [] then some (acc ++ [v / 256, v % 256], some (acc.length + 2), [])
              else parseV6Loop fuel rest3 (acc ++ [v / 256, v % 256]) (some (acc.length + 2))
            | _ => parseV6Loop fuel rest2 (acc ++ [v / 256, v % 256]) ell
          | _ => none

/-- Post-loop of netip `parseIPv6`: reject trailing garbage, expand the
'::' ellipsis with zero bytes (it must stand for at least one zero group),
and require exactly 16 bytes. -/
def v6finish : Option (List Nat × Option Nat × List Nat) → Option (List Nat)
  | none => none
  | some (acc, ell, leftover) =>
    if leftover ≠ [] then none
    else if acc.length < 16 then
      match ell with
      | none => none
      | some e => some (acc.take e ++ List.replicate (16 - acc.length) 0 ++ acc.drop e)
    else if ell ≠ none then none
    else some acc

/-- Go netip `parseIPv6` as used by `net.ParseIP`: a '%' zone suffix is
either a parse error (empty zone) or rejected by `net.ParseIP` itself
(non-empty zone), so any '%' yields none; a leading "::" starts with the
ellipsis recorded at position 0, and a bare "::" is the unspecified
address. -/
def goParseIPv6 (s : List Nat) : Option (List Nat) :=
  if s.contains 37 then none
  else
    match s with
    | 58 :: 58 :: rest =>
      if rest = [] then some (List.replicate 16 0)
      else v6finish (parseV6Loop (rest.length + 1) rest [] (some 0))
    | _ => v6finish (parseV6Loop (s.length + 1) s [] none)

/-- Routing scan of Go netip `ParseAddr`: the first of '.', ':', '%'
decides the parser. -/
def firstSpecial : List Nat → Option Nat
  | [] => none
  | c :: rest => if c = 46 ∨ c = 58 ∨ c = 37 then some c else firstSpecial rest

/-- Go `net.ParseIP`: route on the first special character, parse, and
return the 16-byte form (`As16`); an IPv4 result is stored IPv4-mapped. -/
def goParseIP (s : List Nat) : Option (List Nat) :=
  match firstSpecial s with
  | some 46 =>
    (parseV4Loop s 0 0 0 []).map fun quad => List.replicate 10 0 ++ [255, 255] ++ quad
  | some 58 => goParseIPv6 s
  | _ => none

/-- Go `ValidateBroadcast` from `machine.go`; `true` means it returns nil:
`net.ParseIP` succeeds and `ip.To4()` is non-nil, i.e. the 16-byte form is
IPv4-mapped (bytes 0–9 zero, bytes 10–11 equal to 0xFF). -/
def ValidateBroadcast (broadcast : List Nat) : Bool :=
  match goParseIP broadcast with
  | none => false
  | some ip => ip.take 12 == List.replicate 10 0 ++ [255, 255]

example : ValidateBroadcast (chars "192.168.1.255") = true := by decide
example : ValidateBroadcast (chars "0.0.0.0") = true := by decide
example : ValidateBroadcast (chars "256.1.1.1") = false := by decide
example : ValidateBroadcast (chars "01.2.3.4") = false := by decide
example : ValidateBroadcast (chars "1.2.3") = false := by decide
example : ValidateBroadcast (chars "1.2.3.4.5") = false := by decide
example : ValidateBroadcast (chars "not-an-ip") = false := by decide
example : ValidateBroadcast (chars "2001:db8::1") = false := by decide
example : ValidateBroadcast (chars "::") = false := by decide
example : goParseIP (chars "::") = some (List.replicate 16 0) := by decide
example : goParseIP (chars "2001:db8::1") =
    some [32, 1, 13, 184, 0, 0, 0, 0, 0, 0, 0, 0, 0, 0, 0, 1] := by decide
example : ValidateBroadcast (chars "::ffff:192.168.1.255") = true := by decide

/-- Canonical decimal rendering of an octet value 0–255: one to three
digits, no leading zeros. -/
def quadField (n : Nat) : List Nat :=
  if n < 10 then [48 + n]
  else if n < 100 then [48 + n / 10, 48 + n % 10]
  else [48 + n / 100, 48 + n / 10 % 10, 48 + n % 10]

/-- Canonical IPv4 dotted-quad string for four octet values. -/
def quadStr (a b c d : Nat) : List Nat :=
  quadField a ++ 46 :: (quadField b ++ 46 :: (quadField c ++ 46 :: quadField d))

theorem quadField_ne_nil (n : Nat) : quadField n ≠ [] := by
  unfold quadField
  split_ifs <;> simp

theorem parseV4Loop_digit (c : Nat) (rest : List Nat) (val digLen pos : Nat) (acc : List Nat)
    (hc : 48 ≤ c ∧ c ≤ 57) (hlead : ¬(digLen = 1 ∧ val = 0))
    (hov : ¬ 255 < val * 10 + (c - 48)) :
    parseV4Loop (c :: rest) val digLen pos acc =
      parseV4Loop rest (val * 10 + (c - 48)) (digLen + 1) pos acc := by
  simp only [parseV4Loop]
  rw [if_pos hc, if_neg hlead, if_neg hov]

theorem parseV4Loop_dot (rest : List Nat) (val digLen pos : Nat) (acc : List Nat)
    (hd : digLen ≠ 0) (hr : rest ≠ []) (hpos : pos ≠ 3) :
    parseV4Loop (46 :: rest) val digLen pos acc =
      parseV4Loop rest 0 0 (pos + 1) (acc ++ [val]) := by
  simp only [parseV4Loop]
  rw [if_neg (by omega : ¬(48 ≤ 46 ∧ 46 ≤ 57)), if_pos trivial,
    if_neg (by simp [hd, hr] : ¬(digLen = 0 ∨ rest = [])), if_neg hpos]

theorem parseV4Loop_end (val digLen : Nat) (acc : List Nat) :
    parseV4Loop [] val digLen 3 acc = some (acc ++ [val]) := by
  simp [parseV4Loop]

theorem parseV4Loop_field (n : Nat) (hn : n ≤ 255) (pos : Nat) (hpos : pos < 3)
    (rest : List Nat) (hr : rest ≠ []) (acc : List Nat) :
    parseV4Loop (quadField n ++ 46 :: rest) 0 0 pos acc =
      parseV4Loop rest 0 0 (pos + 1) (acc ++ [n]) := by
  unfold quadField
  split_ifs with h1 h2
  · simp only [List.cons_append, List.nil_append]
    rw [parseV4Loop_digit (48 + n) _ 0 0 pos acc (by omega) (by omega) (by omega)]
    rw [(by omega : 0 * 10 + (48 + n - 48) = n)]
    exact parseV4Loop_dot rest n 1 pos acc (by omega) hr (by omega)
  · simp only [List.cons_append, List.nil_append]
    rw [parseV4Loop_digit (48 + n / 10) _ 0 0 pos acc (by omega) (by omega) (by omega)]
    rw [(by omega : 0 * 10 + (48 + n / 10 - 48) = n / 10)]
    rw [parseV4Loop_digit (48 + n % 10) _ (n / 10) 1 pos acc (by omega) (by omega) (by omega)]
    rw [(by omega : n / 10 * 10 + (48 + n % 10 - 48) = n)]
    exact parseV4Loop_dot rest n 2 pos acc (by omega) hr (by omega)
  · simp only [List.cons_append, List.nil_append]
    rw [parseV4Loop_digit (48 + n / 100) _ 0 0 pos acc (by omega) (by omega) (by omega)]
    rw [(by omega : 0 * 10 + (48 + n / 100 - 48) = n / 100)]
    rw [parseV4Loop_digit (48 + n / 10 % 10) _ (n / 100) 1 pos acc (by omega) (by omega)
      (by omega)]
    rw [(by omega : n / 100 * 10 + (48 + n / 10 % 10 - 48) = n / 10)]
    rw [parseV4Loop_digit (48 + n % 10) _ (n / 10) 2 pos acc (by omega) (by omega) (by omega)]
    rw [(by omega : n / 10 * 10 + (48 + n % 10 - 48) = n)]
    exact parseV4Loop_dot rest n 3 pos acc (by omega) hr (by omega)

theorem parseV4Loop_lastField (n : Nat) (hn : n ≤ 255) (acc : List Nat) :
    parseV4Loop (quadField n) 0 0 3 acc = some (acc ++ [n]) := by
  unfold quadField
  split_ifs with h1 h2
  · rw [parseV4Loop_digit (48 + n) _ 0 0 3 acc (by omega) (by omega) (by omega)]
    rw [(by omega : 0 * 10 + (48 + n - 48) = n)]
    exact parseV4Loop_end n 1 acc
  · rw [parseV4Loop_digit (48 + n / 10) _ 0 0 3 acc (by omega) (by omega) (by omega)]
    rw [(by omega : 0 * 10 + (48 + n / 10 - 48) = n / 10)]
    rw [parseV4Loop_digit (48 + n % 10) _ (n / 10) 1 3 acc (by omega) (by omega) (by omega)]
    rw [(by omega : n / 10 * 10 + (48 + n % 10 - 48) = n)]
    exact parseV4Loop_end n 2 acc
  · rw [parseV4Loop_digit (48 + n / 100) _ 0 0 3 acc (by omega) (by omega) (by omega)]
    rw [(by omega : 0 * 10 + (48 + n / 100 - 48) = n / 100)]
    rw [parseV4Loop_digit (48 + n / 10 % 10) _ (n / 100) 1 3 acc (by omega) (by omega)
      (by omega)]
    rw [(by omega : n / 100 * 10 + (48 + n / 10 % 10 - 48) = n / 10)]
    rw [parseV4Loop_digit (48 + n % 10) _ (n / 10) 2 3 acc (by omega) (by omega) (by omega)]
    rw [(by omega : n / 10 * 10 + (48 + n % 10 - 48) = n)]
    exact parseV4Loop_end n 3 acc

theorem firstSpecial_skip (c : Nat) (rest : List Nat)
    (h : ¬(c = 46 ∨ c = 58 ∨ c = 37)) : firstSpecial (c :: rest) = firstSpecial rest := by
  simp [firstSpecial, h]

theorem firstSpecial_quadField (n : Nat) (hn : n ≤ 255) (rest : List Nat) :
    firstSpecial (quadField n ++ 46 :: rest) = some 46 := by
  unfold quadField
  split_ifs with h1 h2
  · simp only [List.cons_append, List.nil_append]
    rw [firstSpecial_skip _ _ (by omega)]
    simp [firstSpecial]
  · simp only [List.cons_append, List.nil_append]
    rw [firstSpecial_skip _ _ (by omega), firstSpecial_skip _ _ (by omega)]
    simp [firstSpecial]
  · simp only [List.cons_append, List.nil_append]
    rw [firstSpecial_skip _ _ (by omega), firstSpecial_skip _ _ (by omega),
      firstSpecial_skip _ _ (by omega)]
    simp [firstSpecial]

/-- **C6 counterexample.** The string ::ffff:192.168.1.255 is an IPv6
literal (its first special character is ':', so `net.ParseIP` parses it
with the IPv6 grammar), yet `ValidateBroadcast` accepts it, because its
16-byte form is IPv4-mapped and `ip.To4()` is non-nil.  The claim requires
an error for every IPv6 literal. -/
theorem validateBroadcast_v6_accepted :
    firstSpecial (chars "::ffff:192.168.1.255") = some 58 ∧
    ValidateBroadcast (chars "::ffff:192.168.1.255") = true := by
  decide

/-- **C6 (amended).** `ValidateBroadcast` succeeds on every canonical IPv4
dotted-quad (decimal octets 0–255, no leading zeros); it fails on every
string `net.ParseIP` cannot parse; and on every parsed address it succeeds
exactly when the 16-byte form is IPv4-mapped (`ip.To4() != nil`) — so
IPv4-mapped IPv6 literals are accepted, and all other IPv6 literals are
rejected. -/
theorem validateBroadcast_amended :
    (∀ a b c d : Nat, a ≤ 255 → b ≤ 255 → c ≤ 255 → d ≤ 255 →
      ValidateBroadcast (quadStr a b c d) = true) ∧
    (∀ s, goParseIP s = none → ValidateBroadcast s = false) ∧
    (∀ s ip, goParseIP s = some ip →
      ValidateBroadcast s = (ip.take 12 == List.replicate 10 0 ++ [255, 255])) := by
  refine ⟨?_, ?_, ?_⟩
  · intro a b c d ha hb hc hd
    have h1 : parseV4Loop (quadStr a b c d) 0 0 0 [] =
        parseV4Loop (quadField b ++ 46 :: (quadField c ++ 46 :: quadField d)) 0 0 1 [a] := by
      simpa [quadStr] using
        parseV4Loop_field a ha 0 (by omega)
          (quadField b ++ 46 :: (quadField c ++ 46 :: quadField d)) (by simp) []
    have h2 : parseV4Loop (quadField b ++ 46 :: (quadField c ++ 46 :: quadField d)) 0 0 1 [a] =
        parseV4Loop (quadField c ++ 46 :: quadField d) 0 0 2 [a, b] := by
      simpa using
        parseV4Loop_field b hb 1 (by omega) (quadField c ++ 46 :: quadField d) (by simp) [a]
    have h3 : parseV4Loop (quadField c ++ 46 :: quadField d) 0 0 2 [a, b] =
        parseV4Loop (quadField d) 0 0 3 [a, b, c] := by
      simpa using
        parseV4Loop_field c hc 2 (by omega) (quadField d) (quadField_ne_nil d) [a, b]
    have h4 : parseV4Loop (quadField d) 0 0 3 [a, b, c] = some [a, b, c, d] := by
      simpa using parseV4Loop_lastField d hd [a, b, c]
    have hq : parseV4Loop (quadStr a b c d) 0 0 0 [] = some [a, b, c, d] :=
      ((h1.trans h2).trans h3).trans h4
    have hfs : firstSpecial (quadStr a b c d) = some 46 :=
      firstSpecial_quadField a ha (quadField b ++ 46 :: (quadField c ++ 46 :: quadField d))
    unfold ValidateBroadcast goParseIP
    rw [hfs]
    simp only [Option.map]
    rw [hq]
    rfl
  · intro s h
    unfold ValidateBroadcast
    rw [h]
  · intro s ip h
    unfold ValidateBroadcast
    rw [h]

/-- Witness for C6 at the concrete broadcast address 192.168.1.255. -/
theorem validateBroadcast_amended_witness :
    ValidateBroadcast (quadStr 192 168 1 255) = true :=
  validateBroadcast_amended.1 192 168 1 255 (by decide) (by decide) (by decide) (by decide)

/-! ## The transmitter (`wol_packet.go`, `SendMagicPacket`)

`SendMagicPacket` parses the normalized MAC with Go's `net.ParseMAC`
(not with the domain `ValidateMAC`), builds the packet, and only then
touches the network.  The impure socket layer is driven by an oracle of
outcomes; the operations actually attempted are returned as a trace. -/

/-- Go net `xtoi2(s, e)`: the first two characters of `s` as a hex byte;
fails unless both are hex digits and, when `s` is longer than 2, its third
character equals `e`. -/
def xtoi2 (s : List Nat) (e : Nat) : Option Nat :=
  match s with
  | c1 :: c2 :: rest =>
    match hexVal c1, hexVal c2 with
    | some d1, some d2 =>
      match rest with
      | [] => some (d1 * 16 + d2)
      | c3 :: _ => if c3 = e then some (d1 * 16 + d2) else none
    | _, _ => none
  | _ => none

/-- Loop of Go `net.ParseMAC` in the ':'/'-' branch: `n` remaining groups,
each read by `xtoi2` from the current position, advancing 3 characters. -/
def macGroups (e : Nat) : Nat → List Nat → Option (List Nat)
  | 0, _ => some []
  | n + 1, s =>
    match xtoi2 s e with
    | none => none
    | some b => (macGroups e n (s.drop 3)).map (b :: ·)

/-- Loop of Go `net.ParseMAC` in the '.' branch: `n` remaining 2-byte
groups of four hex digits, advancing 5 characters. -/
def macDotGroups : Nat → List Nat → Option (List Nat)
  | 0, _ => some []
  | n + 1, s =>
    match xtoi2 (s.take 2) 0, xtoi2 (s.drop 2) 46 with
    | some b1, some b2 => (macDotGroups n (s.drop 5)).map fun r => b1 :: b2 :: r
    | _, _ => none

/-- Go `net.ParseMAC`: accepts 6-, 8- or 20-byte hardware addresses in
colon-, dash- or dot-separated form (uniform separator per address). -/
def goParseMAC (s : List Nat) : Option (List Nat) :=
  if s.length < 14 then none
  else if s.getD 2 0 = 58 ∨ s.getD 2 0 = 45 then
    if (s.length + 1) % 3 ≠ 0 then none
    else
      let n := (s.length + 1) / 3
      if n = 6 ∨ n = 8 ∨ n = 20 then macGroups (s.getD 2 0) n s else none
  else if s.getD 4 0 = 46 then
    if (s.length + 1) % 5 ≠ 0 then none
    else
      let n := 2 * ((s.length + 1) / 5)
      if n = 6 ∨ n = 8 ∨ n = 20 then macDotGroups (n / 2) s else none
  else none

example : goParseMAC (chars "AA:BB:CC:DD:EE:FF") = some [170, 187, 204, 221, 238, 255] := by
  decide
example : goParseMAC (chars "AABB.CCDD.EEFF") = some [170, 187, 204, 221, 238, 255] := by
  decide
example : goParseMAC (chars "AA:BB-CC:DD:EE:FF") = none := by decide
example : goParseMAC (chars "AA:BB:CC:DD:EE:FF:00:11") =
    some [170, 187, 204, 221, 238, 255, 0, 17] := by decide

/-- Go `net.JoinHostPort(host, "9")`: bracket the host when it contains a
colon. -/
def joinHostPort (host : List Nat) : List Nat :=
  if host.contains 58 then 91 :: (host ++ [93, 58, 57]) else host ++ [58, 57]

/-- Outcomes of the impure socket steps inside `SendMagicPacket`. -/
structure NetOracle where
  dialOk : Bool
  setBufOk : Bool
  resolveOk : Bool
  writeOk : Bool
deriving DecidableEq

/-- Error results of `SendMagicPacket`, one per `return fmt.Errorf` site. -/
inductive SendErr
  | invalidMAC
  | dialFailed
  | setBufFailed
  | resolveFailed
  | writeFailed
deriving DecidableEq

/-- Socket-layer operations `SendMagicPacket` can perform, in trace order. -/
inductive SockOp
  | dial
  | setBuf (bytes : Nat)
  | resolve (addr : List Nat)
  | write (packet : List Nat) (addr : List Nat)
  | close
deriving DecidableEq

/-- Go `WoLPacketSender.SendMagicPacket`: normalize, parse the MAC with
`net.ParseMAC` (failure returns the invalid-MAC error with no socket
activity), build the packet, then dial, set the write buffer, resolve
`broadcast:9` and write, closing the connection on every path after a
successful dial. -/
def sendMagicPacket (o : NetOracle) (mac broadcast : List Nat) :
    Option SendErr × List SockOp :=
  match goParseMAC (normalizeMACAddress mac) with
  | none => (some .invalidMAC, [])
  | some macBytes =>
    let packet := buildMagicPacket macBytes
    let addr := joinHostPort broadcast
    if ¬ o.dialOk then (some .dialFailed, [.dial])
    else if ¬ o.setBufOk then (some .setBufFailed, [.dial, .setBuf 1024, .close])
    else if ¬ o.resolveOk then
      (some .resolveFailed, [.dial, .setBuf 1024, .resolve addr, .close])
    else if ¬ o.writeOk then
      (some .writeFailed, [.dial, .setBuf 1024, .resolve addr, .write packet addr, .close])
    else (none, [.dial, .setBuf 1024, .resolve addr, .write packet addr, .close])

/-- **C3 counterexample.** The dot-separated string aabb.ccdd.eeff is
rejected by `ValidateMAC`, yet `net.ParseMAC` accepts it after
normalization, so `SendMagicPacket` opens a socket and sends successfully
instead of returning an invalid-MAC error with no socket activity. -/
theorem sendMagicPacket_validateMAC_counterexample :
    ValidateMAC (chars "aabb.ccdd.eeff") = false ∧
    (sendMagicPacket ⟨true, true, true, true⟩ (chars "aabb.ccdd.eeff")
        (chars "192.168.1.255")).1 = none ∧
    SockOp.dial ∈ (sendMagicPacket ⟨true, true, true, true⟩ (chars "aabb.ccdd.eeff")
        (chars "192.168.1.255")).2 := by
  decide

/-- **C3 (amended).** For every MAC string that Go's `net.ParseMAC`
rejects after normalization — a strictly weaker premise than rejection by
`ValidateMAC`, since `net.ParseMAC` also accepts dot-separated four-digit
groups and 8- or 20-byte addresses — and for every broadcast string and
every socket-oracle behaviour, `SendMagicPacket` returns the invalid-MAC
error and performs no socket operation at all. -/
theorem sendMagicPacket_invalidMAC (o : NetOracle) (mac broadcast : List Nat)
    (h : goParseMAC (normalizeMACAddress mac) = none) :
    sendMagicPacket o mac broadcast = (some SendErr.invalidMAC, []) := by
  unfold sendMagicPacket
  rw [h]

/-- Witness for C3 at the concrete malformed MAC string "invalid". -/
theorem sendMagicPacket_invalidMAC_witness :
    sendMagicPacket ⟨true, true, true, true⟩ (chars "invalid") (chars "192.168.1.255") =
      (some SendErr.invalidMAC, []) :=
  sendMagicPacket_invalidMAC ⟨true, true, true, true⟩ (chars "invalid")
    (chars "192.168.1.255") (by decide)

/-! ## Machine registry (`internal/repository/yaml_machine_repository.go`)

`NewYAMLMachineRepository` reads and YAML-decodes the config file, then
validates and indexes the records.  File reading and YAML decoding are out
of scope (the claims speak of the already-decoded record sequence), so
construction is modelled from the record list on.  The Go map is modelled
as an association list with insertion at the end; Go's map iteration order
is unspecified, so facts about `GetAll` are stated up to membership. -/

/-- Method `Machine.Validate` from `machine.go`; `true` means nil error:
non-empty id, non-empty name, valid MAC, valid broadcast, in that order. -/
def Machine.ValidateOk (m : Machine) : Bool :=
  !m.id.isEmpty && !m.name.isEmpty && ValidateMAC m.mac && ValidateBroadcast m.broadcast

/-- Construction-time errors of `NewYAMLMachineRepository`. -/
inductive BuildErr
  | invalidMachine (id : List Nat)
  | duplicateMachineID (id : List Nat)
deriving DecidableEq

/-- Validate-and-index loop of `NewYAMLMachineRepository`: validate each
record, reject an id already present, otherwise insert. -/
def buildMachines : List Machine → List (List Nat × Machine) →
    Except BuildErr (List (List Nat × Machine))
  | [], acc => .ok acc
  | m :: rest, acc =>
    if m.ValidateOk then
      if (acc.lookup m.id).isSome then .error (.duplicateMachineID m.id)
      else buildMachines rest (acc ++ [(m.id, m)])
    else .error (.invalidMachine m.id)

/-- `NewYAMLMachineRepository` from the decoded record sequence on:
either a fully built registry or a construction error. -/
def newRepository (records : List Machine) : Except BuildErr (List (List Nat × Machine)) :=
  buildMachines records []

/-- Domain error from `errors.go` relevant here. -/
inductive DomainErr
  | machineNotFound
deriving DecidableEq

/-- Method `YAMLMachineRepository.GetByID`: map lookup, absent id yields
`domain.ErrMachineNotFound`. -/
def getByID (reg : List (List Nat × Machine)) (id : List Nat) : Except DomainErr Machine :=
  match reg.lookup id with
  | some m => .ok m
  | none => .error .machineNotFound

/-- Go slice result, distinguishing a nil slice from an allocated empty
one (`make([]*Machine, 0, n)` is non-nil). -/
structure GoSlice (α : Type) where
  isNil : Bool
  elems : List α
deriving DecidableEq

/-- Method `YAMLMachineRepository.GetAll`: allocate a non-nil slice and
append every stored machine; always a nil error. -/
def getAll (reg : List (List Nat × Machine)) : GoSlice Machine × Option DomainErr :=
  (⟨false, reg.map Prod.snd⟩, none)

theorem lookup_isSome_iff (reg : List (List Nat × Machine)) (id : List Nat) :
    (reg.lookup id).isSome = true ↔ id ∈ reg.map Prod.fst := by
  induction reg with
  | nil => simp [List.lookup]
  | cons p t ih =>
    obtain ⟨k, v⟩ := p
    by_cases h : id = k
    · subst h
      simp [List.lookup]
    · have hb : (id == k) = false := beq_eq_false_iff_ne.mpr h
      simp [List.lookup, hb, ih, h]

theorem lookup_eq_none_of_not_mem (reg : List (List Nat × Machine)) (id : List Nat)
    (h : id ∉ reg.map Prod.fst) : reg.lookup id = none := by
  cases hx : reg.lookup id with
  | none => rfl
  | some m =>
    exact absurd ((lookup_isSome_iff reg id).mp (by rw [hx]; rfl)) h

/-! ## Dispatch orchestrator (`WoLUseCase.SendWakePacket`)

Both copies of the use case in the source (the log-only one and the
metrics-instrumented one) share the same control flow; the embedding
follows the metrics-instrumented version and records the transmitter
invocations and counter increments as an explicit trace. -/

/-- Errors of `WoLUseCase.SendWakePacket`: the wrapped `GetByID` error
("failed to get machine: %w") or the wrapped transmitter error. -/
inductive WakeErr
  | failedToGetMachine (cause : DomainErr)
  | failedToSendPacket
deriving DecidableEq

/-- Observable effects of one `SendWakePacket` call: transmitter
invocations (mac, broadcast) and the three counter increments. -/
structure WakeTrace where
  senderCalls : List (List Nat × List Nat)
  machineNotFoundInc : Nat
  sentInc : Nat
  failedInc : Nat
deriving DecidableEq

/-- `WoLUseCase.SendWakePacket`: look the machine up; on failure increment
the not-found counter and return the wrapped error without touching the
transmitter; on success invoke the transmitter once with the machine's MAC
and broadcast and increment the sent or failed counter. -/
def sendWakePacket (reg : List (List Nat × Machine)) (send : List Nat → List Nat → Bool)
    (machineID : List Nat) : Option WakeErr × WakeTrace :=
  match getByID reg machineID with
  | .error e => (some (.failedToGetMachine e), ⟨[], 1, 0, 0⟩)
  | .ok m =>
    if send m.mac m.broadcast then (none, ⟨[(m.mac, m.broadcast)], 0, 1, 0⟩)
    else (some .failedToSendPacket, ⟨[(m.mac, m.broadcast)], 0, 0, 1⟩)

/-- **C2.** For every registry, every transmitter behaviour and every id
absent from the registry, `SendWakePacket` returns the error wrapping
machine-not-found, the transmitter is never invoked (zero recorded calls,
so no packet is built), and only the not-found counter is incremented. -/
theorem sendWakePacket_notFound (reg : List (List Nat × Machine))
    (send : List Nat → List Nat → Bool) (id : List Nat)
    (h : id ∉ reg.map Prod.fst) :
    sendWakePacket reg send id =
      (some (WakeErr.failedToGetMachine DomainErr.machineNotFound), ⟨[], 1, 0, 0⟩) := by
  unfold sendWakePacket getByID
  rw [lookup_eq_none_of_not_mem reg id h]

/-- Witness for C2: a one-machine registry and the absent id
"nonexistent". -/
theorem sendWakePacket_notFound_witness :
    sendWakePacket
        [(chars "saruman",
          Machine.mk (chars "saruman") (chars "Dev Box") (chars "AA:BB:CC:DD:EE:FF")
            (chars "192.168.1.255"))]
        (fun _ _ => true) (chars "nonexistent") =
      (some (WakeErr.failedToGetMachine DomainErr.machineNotFound), ⟨[], 1, 0, 0⟩) :=
  sendWakePacket_notFound _ _ _ (by decide)

theorem buildMachines_error_of_dup (rs : List Machine) :
    ∀ acc : List (List Nat × Machine), (acc.map Prod.fst).Nodup →
      ¬ (acc.map Prod.fst ++ rs.map Machine.id).Nodup →
      ∃ e, buildMachines rs acc = .error e := by
  induction rs with
  | nil =>
    intro acc h1 h2
    simp only [List.map_nil, List.append_nil] at h2
    exact absurd h1 h2
  | cons m rest ih =>
    intro acc h1 h2
    by_cases hv : m.ValidateOk
    · by_cases hdup : (acc.lookup m.id).isSome
      · exact ⟨.duplicateMachineID m.id, by simp [buildMachines, hv, hdup]⟩
      · have hnm : m.id ∉ acc.map Prod.fst := fun hmem =>
          hdup ((lookup_isSome_iff acc m.id).mpr hmem)
        have hstep : buildMachines (m :: rest) acc =
            buildMachines rest (acc ++ [(m.id, m)]) := by
          simp [buildMachines, hv, hdup]
        rw [hstep]
        apply ih
        · have hk : (acc.map Prod.fst ++ [m.id]).Nodup :=
            (List.perm_append_singleton _ _).nodup_iff.mpr (List.nodup_cons.mpr ⟨hnm, h1⟩)
          simpa using hk
        · intro hc
          apply h2
          simpa [List.append_assoc] using hc
    · exact ⟨.invalidMachine m.id, by simp [buildMachines, hv]⟩

theorem buildMachines_dupErr (rs : List Machine) :
    ∀ acc : List (List Nat × Machine), (∀ m ∈ rs, m.ValidateOk = true) →
      (acc.map Prod.fst).Nodup →
      ¬ (acc.map Prod.fst ++ rs.map Machine.id).Nodup →
      ∃ i, buildMachines rs acc = .error (.duplicateMachineID i) := by
  induction rs with
  | nil =>
    intro acc _ h1 h2
    simp only [List.map_nil, List.append_nil] at h2
    exact absurd h1 h2
  | cons m rest ih =>
    intro acc hv h1 h2
    have hvm : m.ValidateOk = true := hv m (by simp)
    by_cases hdup : (acc.lookup m.id).isSome
    · exact ⟨m.id, by simp [buildMachines, hvm, hdup]⟩
    · have hnm : m.id ∉ acc.map Prod.fst := fun hmem =>
        hdup ((lookup_isSome_iff acc m.id).mpr hmem)
      have hstep : buildMachines (m :: rest) acc =
          buildMachines rest (acc ++ [(m.id, m)]) := by
        simp [buildMachines, hvm, hdup]
      rw [hstep]
      apply ih
      · exact fun x hx => hv x (by simp [hx])
      · have hk : (acc.map Prod.fst ++ [m.id]).Nodup :=
          (List.perm_append_singleton _ _).nodup_iff.mpr (List.nodup_cons.mpr ⟨hnm, h1⟩)
        simpa using hk
      · intro hc
        apply h2
        simpa [List.append_assoc] using hc

theorem buildMachines_ok (rs : List Machine) :
    ∀ acc : List (List Nat × Machine), (∀ m ∈ rs, m.ValidateOk = true) →
      (acc.map Prod.fst ++ rs.map Machine.id).Nodup →
      buildMachines rs acc = .ok (acc ++ rs.map fun m => (m.id, m)) := by
  induction rs with
  | nil => intro acc _ _; simp [buildMachines]
  | cons m rest ih =>
    intro acc hv hnd
    have hvm : m.ValidateOk = true := hv m (by simp)
    have hnm : m.id ∉ acc.map Prod.fst := by
      intro hmem
      have hd := (List.nodup_append.mp (by simpa using hnd)).2.2
      exact hd hmem (by simp)
    have hdup : (acc.lookup m.id).isSome = false := by
      cases hx : (acc.lookup m.id).isSome with
      | false => rfl
      | true => exact absurd ((lookup_isSome_iff acc m.id).mp hx) hnm
    have hstep : buildMachines (m :: rest) acc =
        buildMachines rest (acc ++ [(m.id, m)]) := by
      simp [buildMachines, hvm, hdup]
    rw [hstep, ih (acc ++ [(m.id, m)]) (fun x hx => hv x (by simp [hx])) ?_]
    · simp
    · have : ((acc.map Prod.fst ++ [m.id]) ++ rest.map Machine.id).Nodup := by
        simpa [List.append_assoc] using hnd
      simpa using this

/-- **C4 counterexample.** Two records share the id "x", but because the
first one is invalid (malformed MAC) construction fails with the
invalid-machine error, not with the duplicate-machine-ID error the claim
demands for every id-sharing sequence. -/
theorem newRepository_dup_invalid_counterexample :
    ¬ (([Machine.mk (chars "x") (chars "First") (chars "not-a-mac") (chars "192.168.1.255"),
        Machine.mk (chars "x") (chars "Second") (chars "AA:BB:CC:DD:EE:FF")
          (chars "192.168.1.255")]).map Machine.id).Nodup ∧
    newRepository
        [Machine.mk (chars "x") (chars "First") (chars "not-a-mac") (chars "192.168.1.255"),
         Machine.mk (chars "x") (chars "Second") (chars "AA:BB:CC:DD:EE:FF")
           (chars "192.168.1.255")] =
      .error (.invalidMachine (chars "x")) :=
  ⟨by decide, by rfl⟩

/-- **C4 (amended).** For every record sequence in which two records share
an id, construction always fails and no registry value is produced
(all-or-nothing); the error is the duplicate-machine-ID error whenever
every record passes validation — if some record is invalid, the failure
may instead be the invalid-machine error for the first invalid record. -/
theorem newRepository_duplicate (records : List Machine)
    (h : ¬ (records.map Machine.id).Nodup) :
    (∃ e, newRepository records = .error e) ∧
    ((∀ m ∈ records, m.ValidateOk = true) →
      ∃ i, newRepository records = .error (.duplicateMachineID i)) := by
  constructor
  · exact buildMachines_error_of_dup records [] (by simp) (by simpa using h)
  · intro hv
    exact buildMachines_dupErr records [] hv (by simp) (by simpa using h)

/-- Witness for C4: two valid records sharing the id "x". -/
theorem newRepository_duplicate_witness :
    ∃ i, newRepository
        [Machine.mk (chars "x") (chars "First") (chars "AA:BB:CC:DD:EE:FF")
          (chars "192.168.1.255"),
         Machine.mk (chars "x") (chars "Second") (chars "11:22:33:44:55:66")
           (chars "10.0.0.255")] =
      .error (.duplicateMachineID i) :=
  (newRepository_duplicate _ (by decide)).2 (by decide)

/-- **C7.** For two record sequences that are permutations of the same set
of valid records with pairwise-distinct ids, construction succeeds on both
and the two registries hold the same machines: `GetAll` of one contains a
machine exactly when `GetAll` of the other does. -/
theorem newRepository_perm (rs1 rs2 : List Machine) (hperm : rs1.Perm rs2)
    (hv : ∀ m ∈ rs1, m.ValidateOk = true) (hnd : (rs1.map Machine.id).Nodup) :
    ∃ r1 r2, newRepository rs1 = .ok r1 ∧ newRepository rs2 = .ok r2 ∧
      ∀ m : Machine, m ∈ (getAll r1).1.elems ↔ m ∈ (getAll r2).1.elems := by
  have hv2 : ∀ m ∈ rs2, m.ValidateOk = true := fun m hm => hv m (hperm.mem_iff.mpr hm)
  have hnd2 : (rs2.map Machine.id).Nodup := (hperm.map Machine.id).nodup_iff.mp hnd
  have h1 : newRepository rs1 = .ok (rs1.map fun m => (m.id, m)) := by
    simpa using buildMachines_ok rs1 [] hv (by simpa using hnd)
  have h2 : newRepository rs2 = .ok (rs2.map fun m => (m.id, m)) := by
    simpa using buildMachines_ok rs2 [] hv2 (by simpa using hnd2)
  refine ⟨_, _, h1, h2, ?_⟩
  intro m
  simp only [getAll, List.map_map]
  constructor
  · intro hm
    rcases List.mem_map.mp hm with ⟨x, hx, hxe⟩
    exact List.mem_map.mpr ⟨x, hperm.mem_iff.mp hx, hxe⟩
  · intro hm
    rcases List.mem_map.mp hm with ⟨x, hx, hxe⟩
    exact List.mem_map.mpr ⟨x, hperm.mem_iff.mpr hx, hxe⟩

/-- Witness for C7: the same two valid machines in both orders. -/
theorem newRepository_perm_witness :
    ∃ r1 r2,
      newRepository
          [Machine.mk (chars "a") (chars "Box A") (chars "AA:BB:CC:DD:EE:FF")
            (chars "192.168.1.255"),
           Machine.mk (chars "b") (chars "Box B") (chars "11:22:33:44:55:66")
             (chars "10.0.0.255")] = .ok r1 ∧
      newRepository
          [Machine.mk (chars "b") (chars "Box B") (chars "11:22:33:44:55:66")
            (chars "10.0.0.255"),
           Machine.mk (chars "a") (chars "Box A") (chars "AA:BB:CC:DD:EE:FF")
             (chars "192.168.1.255")] = .ok r2 ∧
      ∀ m : Machine, m ∈ (getAll r1).1.elems ↔ m ∈ (getAll r2).1.elems :=
  newRepository_perm _ _ (by decide) (by decide) (by decide)

/-- **C9.** A registry built from the empty record list is produced
without error, and `GetAll` on it returns a non-nil, zero-length slice and
a nil error. -/
theorem getAll_empty_registry :
    newRepository [] = .ok [] ∧
    getAll [] = (⟨false, []⟩, none) := ⟨rfl, rfl⟩

end Gwaihir
